import Mathlib

/-!
Verification development for the MoBI-View stream server core.

The definitions below shallowly embed the Python source:
- `src/MoBI_GUI/data_inlet.py` (`DataInlet.pull_sample`, circular buffer),
- `src/MoBI_View/web/server.py` (`Broadcaster._run`, `ws_handler`,
  `poll_inlet`, `stream_key`),
- `src/MoBI_View/core/discovery.py` (`discover_and_create_inlets`),
- `src/MoBI_View/core/config.py` (`Config`),
- `src/MoBI_View/web/stream_buffers.py` (`Registry`).

Machine floats appearing only as sample values are modelled as rationals;
the one place where IEEE special values matter (the discovery wait-time
sanitization) uses an explicit model with nan and signed infinities.
-/

namespace MoBIView

/-- Config constants from `src/MoBI_View/core/config.py`. -/
def BUFFER_SIZE : Nat := 1000

/-- `Config.TIMER_INTERVAL` (milliseconds). -/
def TIMER_INTERVAL : Int := 5

/-- `Config.MAX_SAMPLES`. -/
def MAX_SAMPLES : Int := 1000

/-! ## Circular sample buffer (`DataInlet` in `src/MoBI_GUI/data_inlet.py`)

The numpy array `self.buffers` of shape `(BUFFER_SIZE, channel_count)` is
modelled as a function from row index to row; `self.ptr` is the write
pointer. The capacity is a parameter `C` so the buffer laws can be stated
for every capacity (the source fixes `C = Config.BUFFER_SIZE`). -/

structure DataInletBuf where
  buffers : Nat → List ℚ
  ptr : Nat

/-- `DataInlet.__init__`: `self.buffers = np.zeros((C, channel_count))`,
`self.ptr = 0`. -/
def mkDataInletBuf (channel_count : Nat) : DataInletBuf :=
  { buffers := fun _ => List.replicate channel_count 0, ptr := 0 }

/-- `DataInlet.pull_sample`: on a truthy sample, `self.buffers[self.ptr % C]
= sample` followed by `self.ptr += 1`; when the pull yields `None` or an
empty (falsy) sample the state is unchanged. -/
def pull_sample (C : Nat) (b : DataInletBuf) (s : Option (List ℚ)) : DataInletBuf :=
  match s with
  | none => b
  | some [] => b
  | some w =>
    { buffers := fun i => if i = b.ptr % C then w else b.buffers i,
      ptr := b.ptr + 1 }

/-- Iterated `pull_sample` over a sequence of pull results. -/
def pullSeq (C : Nat) (b : DataInletBuf) : List (Option (List ℚ)) → DataInletBuf
  | [] => b
  | s :: rest => pullSeq C (pull_sample C b s) rest

/-- The row index the broadcaster reads: `latest_index = (inlet.ptr - 1) %
Config.BUFFER_SIZE` (`server.py`, `Broadcaster._run`). -/
def latest (C : Nat) (b : DataInletBuf) : List ℚ :=
  b.buffers ((b.ptr - 1) % C)

lemma pull_sample_some_ne (C : Nat) (b : DataInletBuf) (w : List ℚ) (hw : w ≠ []) :
    pull_sample C b (some w) =
      { buffers := fun i => if i = b.ptr % C then w else b.buffers i,
        ptr := b.ptr + 1 } := by
  cases w with
  | nil => exact absurd rfl hw
  | cons a t => rfl

lemma pullSeq_ptr (C : Nat) (ws : List (List ℚ)) :
    ∀ b : DataInletBuf, (∀ w ∈ ws, w ≠ []) →
      (pullSeq C b (ws.map some)).ptr = b.ptr + ws.length := by
  induction ws with
  | nil => intro b _; simp [pullSeq]
  | cons w rest ih =>
    intro b hws
    have hw : w ≠ [] := hws w (List.mem_cons_self w rest)
    have hrest : ∀ v ∈ rest, v ≠ [] := fun v hv => hws v (List.mem_cons_of_mem w hv)
    simp only [List.map_cons, pullSeq, pull_sample_some_ne C b w hw]
    rw [ih _ hrest]
    simp
    omega

lemma pullSeq_untouched (C : Nat) (ws : List (List ℚ)) :
    ∀ (b : DataInletBuf) (i : Nat), (∀ w ∈ ws, w ≠ []) →
      (∀ k, k < ws.length → (b.ptr + k) % C ≠ i) →
      (pullSeq C b (ws.map some)).buffers i = b.buffers i := by
  induction ws with
  | nil => intro b i _ _; simp [pullSeq]
  | cons w rest ih =>
    intro b i hws hk
    have hw : w ≠ [] := hws w (List.mem_cons_self w rest)
    have hrest : ∀ v ∈ rest, v ≠ [] := fun v hv => hws v (List.mem_cons_of_mem w hv)
    simp only [List.map_cons, pullSeq, pull_sample_some_ne C b w hw]
    rw [ih _ i hrest ?_]
    · have h0 : (b.ptr + 0) % C ≠ i := hk 0 (by simp)
      simp only [Nat.add_zero] at h0
      simp [Ne.symm h0]
    · intro k hklt
      have := hk (k + 1) (by simpa using Nat.succ_lt_succ hklt)
      simpa [Nat.add_assoc, Nat.add_comm 1 k] using this

lemma mod_shift_ne (C p s : Nat) (hs0 : 0 < s) (hsC : s < C) :
    (p + s) % C ≠ p % C := by
  intro h
  have hmod : s % C = 0 % C := by
    have h1 : p + s ≡ p + 0 [MOD C] := by
      simpa [Nat.ModEq] using h
    exact Nat.ModEq.add_left_cancel' p h1
  have hdvd : C ∣ s := by
    have : s % C = 0 := by simpa using hmod
    exact Nat.dvd_of_mod_eq_zero this
  have := Nat.le_of_dvd hs0 hdvd
  omega

lemma pullSeq_window (C : Nat) (ws : List (List ℚ)) :
    ∀ (b : DataInletBuf) (k : Nat), (∀ w ∈ ws, w ≠ []) →
      k < ws.length → ws.length ≤ k + C →
      (pullSeq C b (ws.map some)).buffers ((b.ptr + k) % C) = ws.getD k [] := by
  induction ws with
  | nil => intro b k _ hk _; simp at hk
  | cons w rest ih =>
    intro b k hws hk hwin
    have hw : w ≠ [] := hws w (List.mem_cons_self w rest)
    have hrest : ∀ v ∈ rest, v ≠ [] := fun v hv => hws v (List.mem_cons_of_mem w hv)
    simp only [List.map_cons, pullSeq, pull_sample_some_ne C b w hw]
    cases k with
    | zero =>
      simp only [Nat.add_zero, List.getD_cons_zero]
      rw [pullSeq_untouched C rest _ (b.ptr % C) hrest ?_]
      · simp
      · intro j hj
        simp only
        have h1j0 : 0 < 1 + j := by omega
        have h1jC : 1 + j < C := by
          simp only [List.length_cons] at hwin
          omega
        have := mod_shift_ne C b.ptr (1 + j) h1j0 h1jC
        simpa [Nat.add_assoc] using this
    | succ k =>
      simp only [List.getD_cons_succ]
      have hk' : k < rest.length := by simpa using Nat.lt_of_succ_lt_succ hk
      have hwin' : rest.length ≤ k + C := by
        simp only [List.length_cons] at hwin
        omega
      have := ih { buffers := fun i => if i = b.ptr % C then w else b.buffers i,
                   ptr := b.ptr + 1 } k hrest hk' hwin'
      simpa [Nat.add_assoc, Nat.add_comm 1 k] using this

/-- Claim C2: writing N truthy samples into a capacity-C buffer (each write
stored at row write_pointer mod C, then write_pointer incremented) leaves
write_pointer = N; every one of the last min(N, C) written rows is retained
at its write position (so for N ≤ C the whole history is retained and for
N > C exactly the last C rows survive, in write order); the broadcaster-side
latest read returns the most recently written row; and a pull that yields no
sample (None or a falsy empty sample) changes nothing. -/
theorem sample_buffer_retention (C ch : Nat) (hC : 0 < C) (ws : List (List ℚ))
    (hws : ∀ w ∈ ws, w ≠ []) :
    (pullSeq C (mkDataInletBuf ch) (ws.map some)).ptr = ws.length
    ∧ (∀ k, k < ws.length → ws.length ≤ k + C →
        (pullSeq C (mkDataInletBuf ch) (ws.map some)).buffers (k % C) = ws.getD k [])
    ∧ (0 < ws.length →
        latest C (pullSeq C (mkDataInletBuf ch) (ws.map some)) = ws.getD (ws.length - 1) [])
    ∧ (∀ b : DataInletBuf, pull_sample C b none = b ∧ pull_sample C b (some []) = b) := by
  have hptr : (pullSeq C (mkDataInletBuf ch) (ws.map some)).ptr = ws.length := by
    have := pullSeq_ptr C ws (mkDataInletBuf ch) hws
    simpa [mkDataInletBuf] using this
  refine ⟨hptr, ?_, ?_, fun b => ⟨rfl, rfl⟩⟩
  · intro k hk hwin
    have := pullSeq_window C ws (mkDataInletBuf ch) k hws hk hwin
    simpa [mkDataInletBuf] using this
  · intro hN
    have hwin : ws.length ≤ (ws.length - 1) + C := by omega
    have hk : ws.length - 1 < ws.length := by omega
    have hwnd : (pullSeq C (mkDataInletBuf ch) (ws.map some)).buffers ((ws.length - 1) % C) =
        ws.getD (ws.length - 1) [] := by
      have := pullSeq_window C ws (mkDataInletBuf ch) (ws.length - 1) hws hk hwin
      simpa [mkDataInletBuf] using this
    unfold latest
    rw [hptr]
    exact hwnd

/-- Concrete run of claim C2's theorem: capacity 2, three writes. -/
theorem sample_buffer_retention_witness :
    0 < 2 ∧ (∀ w ∈ [[(1 : ℚ)], [2], [3]], w ≠ [])
    ∧ (pullSeq 2 (mkDataInletBuf 1) ([[(1 : ℚ)], [2], [3]].map some)).ptr = 3
    ∧ latest 2 (pullSeq 2 (mkDataInletBuf 1) ([[(1 : ℚ)], [2], [3]].map some)) = [3] := by
  have h := sample_buffer_retention 2 1 (by decide) [[(1 : ℚ)], [2], [3]] (by decide)
  refine ⟨by decide, by decide, h.1, ?_⟩
  have h3 := h.2.2.1 (by decide)
  simpa using h3

/-- Claim C8 as stated is false on the code: after three writes into a
capacity-2 buffer the write pointer is 3, the row at index
write_pointer mod C = 3 mod 2 holds the second-to-last sample, while the
row the broadcaster actually reads, at (write_pointer - 1) mod C, holds the
most recently written sample, and the two differ. -/
theorem latest_index_cex :
    (pullSeq 2 (mkDataInletBuf 1) ([[(5 : ℚ)], [7], [9]].map some)).ptr = 3
    ∧ (pullSeq 2 (mkDataInletBuf 1) ([[(5 : ℚ)], [7], [9]].map some)).buffers (3 % 2) = [7]
    ∧ latest 2 (pullSeq 2 (mkDataInletBuf 1) ([[(5 : ℚ)], [7], [9]].map some)) = [9]
    ∧ ([7] : List ℚ) ≠ [9] := by
  refine ⟨rfl, by decide, by decide, by decide⟩

/-- Claim C8 (amended): for every buffer reached by at least one truthy
write, the write pointer is positive, the latest sample is the row at index
(write_pointer - 1) mod C, and that row is the most recently written one; a
latest read is taken only when write_pointer > 0. -/
theorem latest_read_index (C ch : Nat) (hC : 0 < C) (ws : List (List ℚ))
    (hws : ∀ w ∈ ws, w ≠ []) (hN : 0 < ws.length) :
    0 < (pullSeq C (mkDataInletBuf ch) (ws.map some)).ptr
    ∧ latest C (pullSeq C (mkDataInletBuf ch) (ws.map some)) =
        (pullSeq C (mkDataInletBuf ch) (ws.map some)).buffers
          (((pullSeq C (mkDataInletBuf ch) (ws.map some)).ptr - 1) % C)
    ∧ latest C (pullSeq C (mkDataInletBuf ch) (ws.map some)) = ws.getD (ws.length - 1) [] := by
  have hptr : (pullSeq C (mkDataInletBuf ch) (ws.map some)).ptr = ws.length := by
    have := pullSeq_ptr C ws (mkDataInletBuf ch) hws
    simpa [mkDataInletBuf] using this
  have hwin : ws.length ≤ (ws.length - 1) + C := by omega
  have hk : ws.length - 1 < ws.length := by omega
  have hwnd : (pullSeq C (mkDataInletBuf ch) (ws.map some)).buffers ((ws.length - 1) % C) =
      ws.getD (ws.length - 1) [] := by
    have := pullSeq_window C ws (mkDataInletBuf ch) (ws.length - 1) hws hk hwin
    simpa [mkDataInletBuf] using this
  refine ⟨by omega, rfl, ?_⟩
  unfold latest
  rw [hptr]
  exact hwnd

/-- Concrete run of claim C8's amended theorem: capacity 3, two writes. -/
theorem latest_read_index_witness :
    0 < 3 ∧ (∀ w ∈ [[(4 : ℚ)], [6]], w ≠ []) ∧ 0 < ([[(4 : ℚ)], [6]] : List (List ℚ)).length
    ∧ latest 3 (pullSeq 3 (mkDataInletBuf 1) ([[(4 : ℚ)], [6]].map some)) = [6] := by
  have h := latest_read_index 3 1 (by decide) [[(4 : ℚ)], [6]] (by decide) (by decide)
  refine ⟨by decide, by decide, by decide, ?_⟩
  have h2 := h.2.2
  simpa using h2

/-! ## JSON values and the broadcast frame (`Broadcaster._run` in
`src/MoBI_View/web/server.py`)

A small JSON value type records the exact key names the serializer emits,
so that claims about the wire format are claims about key strings. -/

inductive J where
  | s (v : String)
  | i (v : Int)
  | f (v : ℚ)
  | arr (xs : List J)
  | obj (kvs : List (String × J))

/-- Key list of a JSON object (empty for non-objects). -/
def keysOf : J → List String
  | .obj kvs => kvs.map Prod.fst
  | _ => []

/-- First binding of a key in an association list. -/
def lookupKV : List (String × J) → String → Option J
  | [], _ => none
  | (k, v) :: rest, key => if k = key then some v else lookupKV rest key

/-- Field access on a JSON object (none for non-objects / absent keys). -/
def lookupJ (j : J) (key : String) : Option J :=
  match j with
  | .obj kvs => lookupKV kvs key
  | _ => none

/-- The broadcaster's per-inlet view: the attributes of a
`MoBI_View` `DataInlet` that `Broadcaster._run` reads. -/
structure WebInlet where
  stream_name : String
  stream_type : Option String
  labels : List String
  sample_rate : ℚ
  buffers : Nat → List ℚ
  ptr : Nat

/-- One entry of the frame's streams list (`Broadcaster._run`, the dict
appended to `streams_out`): the latest row is read at
`(inlet.ptr - 1) % Config.BUFFER_SIZE`. -/
def streamEntry (inlet : WebInlet) : J :=
  J.obj
    [("name", J.s inlet.stream_name),
     ("stype", J.s ((inlet.stream_type.getD "").toUpper)),
     ("channels", J.arr (inlet.labels.map J.s)),
     ("srate", J.f inlet.sample_rate),
     ("data", J.arr ((inlet.buffers ((inlet.ptr - 1) % BUFFER_SIZE)).map J.f))]

/-- The streams list built by one tick: inlets with `ptr == 0` are skipped
(`continue`), the rest contribute one entry each in registry order. -/
def streamsOut (inlets : List WebInlet) : List J :=
  (inlets.filter fun inlet => inlet.ptr != 0).map streamEntry

/-- The frame dict serialized on each tick. -/
def buildFrame (tServer : ℚ) (inlets : List WebInlet) : J :=
  J.obj
    [("type", J.s "sample"),
     ("t_server", J.f tServer),
     ("config", J.obj [("max_samples", J.i MAX_SAMPLES),
                       ("timer_interval_ms", J.i TIMER_INTERVAL)]),
     ("streams", J.arr (streamsOut inlets))]

/-- One tick of `Broadcaster._run`: with no connected clients the whole
serialization is skipped (`if self.clients:`), otherwise exactly one frame
is built. Clients are identified by natural numbers. -/
def tickFrame (clients : List Nat) (tServer : ℚ) (inlets : List WebInlet) : Option J :=
  if clients.isEmpty then none else some (buildFrame tServer inlets)

/-- An inlet that has produced samples, used for concrete frame evaluation. -/
def demoInlet : WebInlet :=
  { stream_name := "A", stream_type := some "eeg", labels := ["Channel 1", "Channel 2"],
    sample_rate := 100, buffers := fun _ => [1, 2], ptr := 3 }

/-- Claim C1 as stated is false on the code: the config block of a concrete
broadcast frame carries the keys max_samples and timer_interval_ms, and has
no tick_interval_ms key. -/
theorem broadcast_config_key_cex :
    lookupJ (buildFrame 0 [demoInlet]) "config" =
      some (J.obj [("max_samples", J.i 1000), ("timer_interval_ms", J.i 5)])
    ∧ keysOf (J.obj [("max_samples", J.i 1000), ("timer_interval_ms", J.i 5)]) =
        ["max_samples", "timer_interval_ms"]
    ∧ lookupJ (buildFrame 0 [demoInlet]) "tick_interval_ms" = none
    ∧ "tick_interval_ms" ∉
        keysOf (J.obj [("max_samples", J.i 1000), ("timer_interval_ms", J.i 5)]) := by
  refine ⟨rfl, rfl, rfl, by decide⟩

/-- Claim C1 (amended): on every tick with at least one connected
subscriber exactly one frame is built, with exactly the keys type,
t_server, config and streams; type is the string sample; config carries
exactly max_samples and timer_interval_ms (the code's key, where the claim
said tick_interval_ms); streams holds exactly one entry per registered
inlet with write_pointer greater than 0, in registry order, each entry an
object with exactly the keys name, stype, channels, srate and data; and a
registry holding one inlet with write_pointer 0 and one with a positive
write_pointer yields exactly one entry. -/
theorem broadcast_frame_shape (tS : ℚ) (inlets : List WebInlet) :
    (∀ clients : List Nat, clients ≠ [] →
      tickFrame clients tS inlets = some (buildFrame tS inlets))
    ∧ keysOf (buildFrame tS inlets) = ["type", "t_server", "config", "streams"]
    ∧ lookupJ (buildFrame tS inlets) "type" = some (J.s "sample")
    ∧ lookupJ (buildFrame tS inlets) "t_server" = some (J.f tS)
    ∧ lookupJ (buildFrame tS inlets) "config" =
        some (J.obj [("max_samples", J.i 1000), ("timer_interval_ms", J.i 5)])
    ∧ lookupJ (buildFrame tS inlets) "streams" = some (J.arr (streamsOut inlets))
    ∧ streamsOut inlets = ((inlets.filter fun i => 0 < i.ptr).map streamEntry)
    ∧ (∀ e ∈ streamsOut inlets, keysOf e = ["name", "stype", "channels", "srate", "data"])
    ∧ (∀ iEmpty iFull : WebInlet, iEmpty.ptr = 0 → 0 < iFull.ptr →
        (streamsOut [iEmpty, iFull]).length = 1) := by
  refine ⟨?_, rfl, rfl, rfl, rfl, rfl, ?_, ?_, ?_⟩
  · intro clients hne
    cases clients with
    | nil => exact absurd rfl hne
    | cons c rest => rfl
  · unfold streamsOut
    congr 1
    apply List.filter_congr
    intro i _
    cases h : i.ptr with
    | zero => simp [h]
    | succ n => simp [h]
  · intro e he
    unfold streamsOut at he
    rcases List.mem_map.mp he with ⟨i, _, hi⟩
    rw [← hi]
    rfl
  · intro iEmpty iFull h0 hpos
    unfold streamsOut
    have hne : iFull.ptr ≠ 0 := by omega
    have hb : (iFull.ptr != 0) = true := by simpa using hne
    simp [List.filter, h0, hb]

/-- Concrete run of claim C1's theorem: a registry with one empty inlet and
one inlet at write_pointer 3 yields a one-entry streams list, and the tick
with one subscriber produces the frame. -/
theorem broadcast_frame_shape_witness :
    ({ demoInlet with ptr := 0 } : WebInlet).ptr = 0 ∧ 0 < demoInlet.ptr
    ∧ (streamsOut [{ demoInlet with ptr := 0 }, demoInlet]).length = 1
    ∧ ([0] : List Nat) ≠ []
    ∧ tickFrame [0] 0 [{ demoInlet with ptr := 0 }, demoInlet] =
        some (buildFrame 0 [{ demoInlet with ptr := 0 }, demoInlet]) := by
  have h := broadcast_frame_shape 0 [{ demoInlet with ptr := 0 }, demoInlet]
  refine ⟨rfl, by decide, ?_, by decide, ?_⟩
  · exact h.2.2.2.2.2.2.2.2 { demoInlet with ptr := 0 } demoInlet rfl (by decide)
  · exact h.1 [0] (by decide)

/-! ## Per-inlet ingestion task (`poll_inlet` in `src/MoBI_View/web/server.py`)

The Registry (`src/MoBI_View/web/stream_buffers.py`) keys inlets by
`stream_name`; its key set is modelled as a list of names. The outcome of
each `inlet.pull_sample()` call inside the loop is an oracle value. -/

inductive PullOutcome where
  | ok
  | lost
  | err
deriving DecidableEq

/-- `poll_inlet`: each iteration calls `pull_sample`; `StreamLostError`
removes the inlet's name from the registry and breaks out of the loop (the
remaining outcomes are never consumed); any other exception sleeps a
backoff and retries; a normal pull just continues. The result is the final
registry key set together with the number of registry removals performed. -/
def poll_inlet (name : String) (reg : List String) :
    List PullOutcome → List String × Nat
  | [] => (reg, 0)
  | PullOutcome.ok :: rest => poll_inlet name reg rest
  | PullOutcome.err :: rest => poll_inlet name reg rest
  | PullOutcome.lost :: _ => (reg.erase name, 1)

/-- Claim C4: when a pull raises StreamLost, the task removes exactly that
inlet's name from the Registry exactly once and terminates (outcomes after
the loss are irrelevant); every other name keeps its membership; and a run
whose pulls never raise StreamLost performs no removal and leaves the
Registry unchanged. -/
theorem poll_inlet_stream_loss (name : String) (reg : List String)
    (pre rest : List PullOutcome) (hpre : ∀ r ∈ pre, r ≠ PullOutcome.lost) :
    poll_inlet name reg (pre ++ PullOutcome.lost :: rest) = (reg.erase name, 1)
    ∧ (∀ m : String, m ≠ name →
        (m ∈ (poll_inlet name reg (pre ++ PullOutcome.lost :: rest)).1 ↔ m ∈ reg))
    ∧ (∀ outs : List PullOutcome, (∀ r ∈ outs, r ≠ PullOutcome.lost) →
        poll_inlet name reg outs = (reg, 0)) := by
  have hrun : ∀ (pre : List PullOutcome), (∀ r ∈ pre, r ≠ PullOutcome.lost) →
      poll_inlet name reg (pre ++ PullOutcome.lost :: rest) = (reg.erase name, 1) := by
    intro pre
    induction pre with
    | nil => intro _; rfl
    | cons r tl ih =>
      intro h
      have hr : r ≠ PullOutcome.lost := h r (List.mem_cons_self r tl)
      have htl : ∀ x ∈ tl, x ≠ PullOutcome.lost := fun x hx => h x (List.mem_cons_of_mem r hx)
      cases r with
      | ok => simpa [poll_inlet] using ih htl
      | err => simpa [poll_inlet] using ih htl
      | lost => exact absurd rfl hr
  have hnone : ∀ outs : List PullOutcome, (∀ r ∈ outs, r ≠ PullOutcome.lost) →
      poll_inlet name reg outs = (reg, 0) := by
    intro outs
    induction outs with
    | nil => intro _; rfl
    | cons r tl ih =>
      intro h
      have hr : r ≠ PullOutcome.lost := h r (List.mem_cons_self r tl)
      have htl : ∀ x ∈ tl, x ≠ PullOutcome.lost := fun x hx => h x (List.mem_cons_of_mem r hx)
      cases r with
      | ok => simpa [poll_inlet] using ih htl
      | err => simpa [poll_inlet] using ih htl
      | lost => exact absurd rfl hr
  refine ⟨hrun pre hpre, ?_, hnone⟩
  intro m hm
  rw [hrun pre hpre]
  exact List.mem_erase_of_ne hm

/-- Concrete run of claim C4's theorem: one good pull, then StreamLost,
then a further (never-consumed) outcome. -/
theorem poll_inlet_stream_loss_witness :
    (∀ r ∈ [PullOutcome.ok], r ≠ PullOutcome.lost)
    ∧ poll_inlet "A" ["A", "B"]
        ([PullOutcome.ok] ++ PullOutcome.lost :: [PullOutcome.ok]) = (["B"], 1) := by
  have h := poll_inlet_stream_loss "A" ["A", "B"] [PullOutcome.ok] [PullOutcome.ok]
    (by decide)
  refine ⟨by decide, ?_⟩
  rw [h.1]
  rfl

/-! ## Subscriber fan-out (`Broadcaster._run` send loop and `ws_handler`
in `src/MoBI_View/web/server.py`) -/

/-- The per-tick send loop: iterate over a snapshot `list(self.clients)`;
a failed `ws.send` removes that client from the live list (guarded against
ValueError, so removing an absent client is a no-op); a successful send
delivers the frame. Returns the live client list after the tick and the
clients that received the frame, in send order. -/
def tickSendLoop (sendOk : Nat → Bool) : List Nat → List Nat → List Nat × List Nat
  | [], cur => (cur, [])
  | ws :: rest, cur =>
    if sendOk ws then
      let p := tickSendLoop sendOk rest cur
      (p.1, ws :: p.2)
    else
      tickSendLoop sendOk rest (cur.erase ws)

/-- One broadcast tick's fan-out over the current client list. -/
def broadcastTick (clients : List Nat) (sendOk : Nat → Bool) : List Nat × List Nat :=
  tickSendLoop sendOk clients clients

/-- `ws_handler` on connect: `broadcaster.clients.append(websocket)`. -/
def wsConnect (clients : List Nat) (ws : Nat) : List Nat := clients ++ [ws]

/-- `ws_handler` on disconnect (the `finally` block): remove the client,
ignoring ValueError when it is already gone. -/
def wsDisconnect (clients : List Nat) (ws : Nat) : List Nat := clients.erase ws

/-- Claim C5: with two subscribers where the first send fails and the
second succeeds, after the tick the failing subscriber is out of the set
and the succeeding one received exactly one frame; connect followed by
disconnect restores the set (added exactly once, removed exactly once);
removing an already-absent subscriber is a no-op, so the post-failure
disconnect never removes twice; and the failing subscriber is not left in
the set. -/
theorem fanout_isolation (a b : Nat) (sendOk : Nat → Bool) (hab : a ≠ b)
    (hfa : sendOk a = false) (hfb : sendOk b = true) :
    broadcastTick [a, b] sendOk = ([b], [b])
    ∧ (broadcastTick [a, b] sendOk).2.count b = 1
    ∧ a ∉ (broadcastTick [a, b] sendOk).1
    ∧ (∀ (clients : List Nat) (ws : Nat), ws ∉ clients →
        wsDisconnect (wsConnect clients ws) ws = clients)
    ∧ (∀ (clients : List Nat) (ws : Nat), ws ∉ clients →
        wsDisconnect clients ws = clients) := by
  have hrun : broadcastTick [a, b] sendOk = ([b], [b]) := by
    simp [broadcastTick, tickSendLoop, hfa, hfb, List.erase_cons_head]
  refine ⟨hrun, ?_, ?_, ?_, ?_⟩
  · rw [hrun]; simp
  · rw [hrun]; simpa using hab
  · intro clients ws hws
    unfold wsConnect wsDisconnect
    rw [List.erase_append_right _ hws]
    simp
  · intro clients ws hws
    exact List.erase_of_not_mem hws

/-- Concrete run of claim C5's theorem: clients 0 (failing) and 1
(succeeding). -/
theorem fanout_isolation_witness :
    (0 : Nat) ≠ 1
    ∧ (fun n : Nat => n == 1) 0 = false
    ∧ (fun n : Nat => n == 1) 1 = true
    ∧ broadcastTick [0, 1] (fun n : Nat => n == 1) = ([1], [1])
    ∧ wsDisconnect (wsConnect [] 7) 7 = [] := by
  have h := fanout_isolation 0 1 (fun n : Nat => n == 1) (by decide) (by decide) (by decide)
  exact ⟨by decide, by decide, by decide, h.1, h.2.2.2.1 [] 7 (by decide)⟩

/-! ## Discovery (`discover_and_create_inlets` in
`src/MoBI_View/core/discovery.py`)

A discovered `StreamInfo` is modelled by its identity fields plus the
outcome of `DataInlet(info)` (none when construction raises); a created
inlet carries the identity attributes the deduplication set is built from. -/

structure CoreInlet where
  source_id : String
  stream_name : String
  stream_type : String
  channel_count : Nat
deriving DecidableEq

structure DInfo where
  source_id : String
  name : String
  type : String
  mkInlet : Option CoreInlet
deriving DecidableEq

/-- `stream_id = (info.source_id(), info.name(), info.type())`. -/
def streamId (info : DInfo) : String × String × String :=
  (info.source_id, info.name, info.type)

/-- The `existing_streams` set built from `existing_inlets`. -/
def existingKeys (existing : List CoreInlet) : List (String × String × String) :=
  existing.map fun i => (i.source_id, i.stream_name, i.stream_type)

/-- The per-stream loop body of `discover_and_create_inlets`: an already
seen identity is skipped; otherwise `DataInlet(info)` is attempted — on
success the inlet is appended and the identity added to the seen set, on
failure (the inner `except`) the stream is skipped and the identity is not
added (the `add` comes after construction). -/
def discoverLoop :
    List DInfo → List (String × String × String) → List CoreInlet → List CoreInlet
  | [], _, acc => acc
  | info :: rest, seen, acc =>
    if streamId info ∈ seen then discoverLoop rest seen acc
    else
      match info.mkInlet with
      | some inlet => discoverLoop rest (streamId info :: seen) (acc ++ [inlet])
      | none => discoverLoop rest seen acc

/-- `discover_and_create_inlets`: when `resolve_streams` itself raises
(modelled by `none`) the outer `except` logs and the initial empty
`new_inlets` list is returned; otherwise the loop runs over the resolver
result. -/
def discover_and_create_inlets (existing : List CoreInlet)
    (resolved : Option (List DInfo)) : List CoreInlet :=
  match resolved with
  | none => []
  | some infos => discoverLoop infos (existingKeys existing) []

/-- Claim C3: with a resolver result holding one already-known identity and
one new identity whose construction succeeds, exactly the new inlet is
created (none for the known identity); and two resolver entries with the
same identity key in one call yield at most one inlet. -/
theorem discovery_dedup :
    (∀ (existing : List CoreInlet) (iOld iNew : DInfo) (newInlet : CoreInlet),
        streamId iOld ∈ existingKeys existing →
        streamId iNew ∉ existingKeys existing →
        iNew.mkInlet = some newInlet →
        discover_and_create_inlets existing (some [iOld, iNew]) = [newInlet])
    ∧ (∀ (existing : List CoreInlet) (i1 i2 : DInfo),
        streamId i1 = streamId i2 →
        (discover_and_create_inlets existing (some [i1, i2])).length ≤ 1) := by
  constructor
  · intro existing iOld iNew newInlet hOld hNew hMk
    simp [discover_and_create_inlets, discoverLoop, hOld, hNew, hMk]
  · intro existing i1 i2 h12
    by_cases hmem : streamId i1 ∈ existingKeys existing
    · have hmem2 : streamId i2 ∈ existingKeys existing := h12 ▸ hmem
      simp [discover_and_create_inlets, discoverLoop, hmem, hmem2]
    · cases hmk : i1.mkInlet with
      | some a =>
        have h2seen : streamId i2 ∈ streamId i1 :: existingKeys existing := by
          rw [← h12]; exact List.mem_cons_self _ _
        simp [discover_and_create_inlets, discoverLoop, hmem, hmk, h2seen]
      | none =>
        have hmem2 : streamId i2 ∉ existingKeys existing := h12 ▸ hmem
        cases hmk2 : i2.mkInlet with
        | some b =>
          simp [discover_and_create_inlets, discoverLoop, hmem, hmem2, hmk, hmk2]
        | none =>
          simp [discover_and_create_inlets, discoverLoop, hmem, hmem2, hmk, hmk2]

/-- Concrete run of claim C3's theorem: one known and one new stream. -/
theorem discovery_dedup_witness :
    streamId { source_id := "s1", name := "Old", type := "EEG",
               mkInlet := some { source_id := "s1", stream_name := "Old",
                                 stream_type := "EEG", channel_count := 2 } } ∈
      existingKeys [{ source_id := "s1", stream_name := "Old",
                      stream_type := "EEG", channel_count := 2 }]
    ∧ discover_and_create_inlets
        [{ source_id := "s1", stream_name := "Old", stream_type := "EEG",
           channel_count := 2 }]
        (some [{ source_id := "s1", name := "Old", type := "EEG",
                 mkInlet := some { source_id := "s1", stream_name := "Old",
                                   stream_type := "EEG", channel_count := 2 } },
               { source_id := "s2", name := "New", type := "EMG",
                 mkInlet := some { source_id := "s2", stream_name := "New",
                                   stream_type := "EMG", channel_count := 4 } }]) =
        [{ source_id := "s2", stream_name := "New", stream_type := "EMG",
           channel_count := 4 }] := by
  refine ⟨by decide, ?_⟩
  exact discovery_dedup.1 _ _ _ _ (by decide) (by decide) rfl

lemma discoverLoop_skip_failed (post : List DInfo) (iBad : DInfo)
    (hbad : iBad.mkInlet = none) :
    ∀ (pre : List DInfo) (seen : List (String × String × String))
      (acc : List CoreInlet),
      discoverLoop (pre ++ iBad :: post) seen acc = discoverLoop (pre ++ post) seen acc := by
  intro pre
  induction pre with
  | nil =>
    intro seen acc
    by_cases hm : streamId iBad ∈ seen
    · simp [discoverLoop, hm]
    · simp [discoverLoop, hm, hbad]
  | cons hd tl ih =>
    intro seen acc
    by_cases hm : streamId hd ∈ seen
    · simp [discoverLoop, hm, ih]
    · cases hmk : hd.mkInlet with
      | some a => simp [discoverLoop, hm, hmk, ih]
      | none => simp [discoverLoop, hm, hmk, ih]

/-- Claim C6: a stream whose inlet construction raises is skipped on its
own — the call creates exactly the inlets it would have created had that
stream not been advertised; and when the resolver call itself raises,
discover_and_create_inlets returns the empty list instead of propagating. -/
theorem discovery_failure_isolation :
    (∀ (existing : List CoreInlet) (pre post : List DInfo) (iBad : DInfo),
        iBad.mkInlet = none →
        discover_and_create_inlets existing (some (pre ++ iBad :: post)) =
          discover_and_create_inlets existing (some (pre ++ post)))
    ∧ (∀ existing : List CoreInlet, discover_and_create_inlets existing none = []) := by
  constructor
  · intro existing pre post iBad hbad
    simp only [discover_and_create_inlets]
    exact discoverLoop_skip_failed post iBad hbad pre (existingKeys existing) []
  · intro existing
    rfl

/-- Concrete run of claim C6's theorem: a failing stream between two good
ones is skipped while both good ones are created. -/
theorem discovery_failure_isolation_witness :
    ({ source_id := "sb", name := "Bad", type := "EEG", mkInlet := none } : DInfo).mkInlet
      = none
    ∧ discover_and_create_inlets []
        (some ([{ source_id := "s1", name := "G1", type := "EEG",
                  mkInlet := some { source_id := "s1", stream_name := "G1",
                                    stream_type := "EEG", channel_count := 1 } }] ++
               ({ source_id := "sb", name := "Bad", type := "EEG", mkInlet := none } : DInfo) ::
               [{ source_id := "s2", name := "G2", type := "EMG",
                  mkInlet := some { source_id := "s2", stream_name := "G2",
                                    stream_type := "EMG", channel_count := 2 } }])) =
      discover_and_create_inlets []
        (some ([{ source_id := "s1", name := "G1", type := "EEG",
                  mkInlet := some { source_id := "s1", stream_name := "G1",
                                    stream_type := "EEG", channel_count := 1 } }] ++
               [{ source_id := "s2", name := "G2", type := "EMG",
                  mkInlet := some { source_id := "s2", stream_name := "G2",
                                    stream_type := "EMG", channel_count := 2 } }]))
    ∧ discover_and_create_inlets
        [{ source_id := "s1", stream_name := "G1", stream_type := "EEG",
           channel_count := 1 }] none = [] := by
  refine ⟨rfl, ?_, ?_⟩
  · exact discovery_failure_isolation.1 [] _ _ _ rfl
  · exact discovery_failure_isolation.2 _

/-! ## Wait-time sanitization (`discover_and_create_inlets`, lines 53-68 of
`src/MoBI_View/core/discovery.py`)

Python floats are modelled with explicit IEEE special values; the only
operations the code performs on them are the comparisons below, whose
IEEE semantics (every comparison with nan is false) are encoded directly. -/

inductive PyNum where
  | nan
  | inf
  | ninf
  | fin (q : ℚ)
deriving DecidableEq

/-- `x == float("inf")` (false for nan). -/
def pyEqInf : PyNum → Bool
  | .inf => true
  | _ => false

/-- `x <= c` for a finite literal c (false for nan and +inf, true for -inf). -/
def pyLe (x : PyNum) (c : ℚ) : Bool :=
  match x with
  | .nan => false
  | .inf => false
  | .ninf => true
  | .fin q => q ≤ c

/-- `x < c` for a finite literal c. -/
def pyLt (x : PyNum) (c : ℚ) : Bool :=
  match x with
  | .nan => false
  | .inf => false
  | .ninf => true
  | .fin q => q < c

/-- `x >= c` for a finite literal c (false for nan and -inf). -/
def pyGe (x : PyNum) (c : ℚ) : Bool :=
  match x with
  | .nan => false
  | .inf => true
  | .ninf => false
  | .fin q => c ≤ q

/-- The `wait_time` argument: `None`, a numeric value (Python bools count
as ints and pass the isinstance check), or a non-numeric object. -/
inductive WaitArg where
  | noneV
  | num (x : PyNum)
  | nonNumeric
deriving DecidableEq

/-- Modelled from the spec: `Config.STREAM_RESOLVE_WAIT_TIME` is read by
discovery.py but the config revision defining it is not under src (the
shipped `core/config.py` has no such attribute); the discovery docstring
gives its default as 1.0 seconds. -/
def STREAM_RESOLVE_WAIT_TIME : PyNum := .fin 1

/-- The `elif` chain of lines 56-68: non-isinstance values and +inf fall
back to 1.0; values `<= 0` fall back to 1.0; values `< 0.5` are raised to
0.5; everything else (including nan, which fails all three comparisons)
is passed through unchanged. -/
def sanitizeNum (x : PyNum) : PyNum :=
  if pyEqInf x then .fin 1
  else if pyLe x 0 then .fin 1
  else if pyLt x (1/2) then .fin (1/2)
  else x

/-- The effective wait value handed to `resolve_streams`: a `None`
argument is first replaced by the config default and then flows through
the same chain. -/
def sanitize_wait_time : WaitArg → PyNum
  | .noneV => sanitizeNum STREAM_RESOLVE_WAIT_TIME
  | .num x => sanitizeNum x
  | .nonNumeric => .fin 1

/-- Claim C9 names the intended behavior, but the code lets nan through:
nan fails the equality-with-inf test and both ordering tests, so it is
passed to the resolver unchanged and the effective wait is not at least
0.5 seconds; the other special values behave as the claim says. -/
theorem wait_time_nan_passthrough :
    sanitize_wait_time (WaitArg.num PyNum.nan) = PyNum.nan
    ∧ pyGe (sanitize_wait_time (WaitArg.num PyNum.nan)) (1/2) = false
    ∧ sanitize_wait_time (WaitArg.num PyNum.inf) = PyNum.fin 1
    ∧ sanitize_wait_time (WaitArg.num PyNum.ninf) = PyNum.fin 1
    ∧ sanitize_wait_time (WaitArg.num (PyNum.fin (-3))) = PyNum.fin 1
    ∧ sanitize_wait_time (WaitArg.num (PyNum.fin 0)) = PyNum.fin 1
    ∧ sanitize_wait_time (WaitArg.num (PyNum.fin (1/10))) = PyNum.fin (1/2)
    ∧ sanitize_wait_time WaitArg.nonNumeric = PyNum.fin 1
    ∧ sanitize_wait_time WaitArg.noneV = PyNum.fin 1 := by
  refine ⟨rfl, rfl, rfl, rfl, ?_, ?_, ?_, rfl, ?_⟩ <;>
    norm_num [sanitize_wait_time, sanitizeNum, pyEqInf, pyLe, pyLt,
      STREAM_RESOLVE_WAIT_TIME]

/-! ## Stream identity key (`stream_key` in `src/MoBI_View/web/server.py`)

A `StreamInfo` is modelled by the behavior of its four accessors: an
attribute can be absent (`getattr` yields None), present but not callable,
callable but raising, or callable returning a string (the empty string
being Python-falsy). For `uid`, absence, non-callability and raising all
land in the same `except` and are identified. -/

inductive AttrRes where
  | missing
  | notCallable
  | raises
  | returns (s : String)
deriving DecidableEq

structure KeyInfo where
  uid : AttrRes
  source_id : AttrRes
  name : AttrRes
  type : AttrRes
deriving DecidableEq

/-- `str(value) if value else "?"` after the guarded call: absent or
non-callable attributes and raising calls give a None (falsy) value, an
empty string is falsy too; only a non-empty string survives. -/
def attrPart : AttrRes → String
  | .missing => "?"
  | .notCallable => "?"
  | .raises => "?"
  | .returns s => if s = "" then "?" else s

/-- Whether `info.uid()` produced a truthy value inside the `try`. -/
def uidTruthy (info : KeyInfo) : Bool :=
  match info.uid with
  | .returns s => s != ""
  | _ => false

/-- `stream_key`: return `str(uid)` when `info.uid()` exists and is
truthy; otherwise join the three guarded identity parts with the
separator. -/
def stream_key (info : KeyInfo) : String :=
  match info.uid with
  | .returns s =>
    if s = "" then
      String.intercalate "::" [attrPart info.source_id, attrPart info.name, attrPart info.type]
    else s
  | _ =>
    String.intercalate "::" [attrPart info.source_id, attrPart info.name, attrPart info.type]

/-- A stream exposing neither uid nor any identity field. -/
def blankInfo : KeyInfo :=
  { uid := AttrRes.missing, source_id := AttrRes.missing,
    name := AttrRes.missing, type := AttrRes.missing }

/-- Claim C10: stream_key is total; it returns the uid whenever the uid
call succeeds with a non-empty string; otherwise it joins the guarded
source_id, name and type parts with the double-colon separator, each part
collapsing to a question mark when the attribute is missing, not callable,
raising, or falsy; and any two streams with no uid and no identity fields
share the key of three question marks. -/
theorem stream_key_spec (info : KeyInfo) :
    (∀ s : String, info.uid = AttrRes.returns s → s ≠ "" → stream_key info = s)
    ∧ (uidTruthy info = false →
        stream_key info =
          String.intercalate "::"
            [attrPart info.source_id, attrPart info.name, attrPart info.type])
    ∧ attrPart AttrRes.missing = "?"
    ∧ attrPart AttrRes.notCallable = "?"
    ∧ attrPart AttrRes.raises = "?"
    ∧ (∀ s : String, attrPart (AttrRes.returns s) = if s = "" then "?" else s)
    ∧ (∀ other : KeyInfo,
        info.uid = AttrRes.missing → info.source_id = AttrRes.missing →
        info.name = AttrRes.missing → info.type = AttrRes.missing →
        other.uid = AttrRes.missing → other.source_id = AttrRes.missing →
        other.name = AttrRes.missing → other.type = AttrRes.missing →
        stream_key info = "?::?::?" ∧ stream_key info = stream_key other) := by
  refine ⟨?_, ?_, rfl, rfl, rfl, fun s => rfl, ?_⟩
  · intro s hs hne
    simp [stream_key, hs, hne]
  · intro hfalse
    cases h : info.uid with
    | returns s =>
      have : s = "" := by
        unfold uidTruthy at hfalse
        rw [h] at hfalse
        simpa using hfalse
      simp [stream_key, h, this]
    | missing => simp [stream_key, h]
    | notCallable => simp [stream_key, h]
    | raises => simp [stream_key, h]
  · intro other hu hsrc hnm hty hu2 hsrc2 hnm2 hty2
    constructor
    · simp [stream_key, hu, hsrc, hnm, hty, attrPart]
      rfl
    · simp [stream_key, hu, hsrc, hnm, hty, hu2, hsrc2, hnm2, hty2]

/-- Concrete run of claim C10's theorem: a stream with a truthy uid keys
by the uid, and the blank stream collapses to the three question marks. -/
theorem stream_key_spec_witness :
    ({ uid := AttrRes.returns "u-77", source_id := AttrRes.raises,
       name := AttrRes.returns "X", type := AttrRes.missing } : KeyInfo).uid
      = AttrRes.returns "u-77"
    ∧ ("u-77" : String) ≠ ""
    ∧ stream_key { uid := AttrRes.returns "u-77", source_id := AttrRes.raises,
                   name := AttrRes.returns "X", type := AttrRes.missing } = "u-77"
    ∧ stream_key blankInfo = "?::?::?" := by
  refine ⟨rfl, by decide, ?_, ?_⟩
  · exact (stream_key_spec _).1 "u-77" rfl (by decide)
  · exact ((stream_key_spec blankInfo).2.2.2.2.2.2 blankInfo
      rfl rfl rfl rfl rfl rfl rfl rfl).1

/-! ## Subscriber control messages -/

/-- An inbound WebSocket message, after JSON parsing: either a well-formed
discover-streams request or anything malformed (invalid JSON or an
unrecognized shape). -/
inductive InboundMsg where
  | discoverStreams
  | malformed
deriving DecidableEq

/-- The outcome of handling one inbound message: the optional reply sent
on the same connection, and whether the connection stays open. -/
structure ControlOutcome where
  response : Option J
  connectionOpen : Bool

/-- Modelled from the spec: the inbound control-message handler is not
under src — the `ws_handler` in `server.py` only registers the client and
awaits close, while the handler answering discover-streams requests is
exercised only by the smoke tests. Per the spec, a discover-streams
request runs Discovery and is answered on the same connection with a
discover-result message carrying count (newly created streams) and
total_streams (all known streams); malformed inbound messages are logged
and ignored and never terminate the subscriber connection. Discovery
itself is the embedded `discover_and_create_inlets`. -/
def handle_client_message (existing : List CoreInlet)
    (resolved : Option (List DInfo)) : InboundMsg → ControlOutcome
  | .discoverStreams =>
    { response := some (J.obj
        [("type", J.s "discover_result"),
         ("count", J.i (discover_and_create_inlets existing resolved).length),
         ("total_streams",
          J.i (existing.length + (discover_and_create_inlets existing resolved).length))]),
      connectionOpen := true }
  | .malformed => { response := none, connectionOpen := true }

/-- Claim C7: a discover-streams request is answered on that connection by
a discover-result object whose count field is the number of inlets the
Discovery run created and whose total_streams field is the total number of
known streams, with the connection left open; a malformed inbound message
produces no reply and never terminates the connection. -/
theorem ws_control_messages (existing : List CoreInlet)
    (resolved : Option (List DInfo)) :
    (∃ resp : J,
      (handle_client_message existing resolved InboundMsg.discoverStreams).response
        = some resp
      ∧ lookupJ resp "type" = some (J.s "discover_result")
      ∧ lookupJ resp "count" =
          some (J.i (discover_and_create_inlets existing resolved).length)
      ∧ lookupJ resp "total_streams" =
          some (J.i (existing.length + (discover_and_create_inlets existing resolved).length))
      ∧ keysOf resp = ["type", "count", "total_streams"])
    ∧ (handle_client_message existing resolved InboundMsg.discoverStreams).connectionOpen
        = true
    ∧ (handle_client_message existing resolved InboundMsg.malformed).connectionOpen = true
    ∧ (handle_client_message existing resolved InboundMsg.malformed).response = none := by
  exact ⟨⟨_, rfl, rfl, rfl, rfl, rfl⟩, rfl, rfl, rfl⟩

end MoBIView
